import Mathlib

set_option maxRecDepth 8000

/-!
Verification of the data-validation repository: shallow embedding of the
pydantic validators (pydantic_example.py), the pandera schema checks
(get_data.py), and the schema-validation engine / schema codec described by
the specification.
-/

/- ===== Regular expressions with Python re.match semantics ===== -/

/-- Regular expressions over characters; patterns are stored compiled. -/
abbrev RE := RegularExpression Char

/-- A literal string as a regular expression: concatenation of its characters. -/
def strLit (s : String) : RE :=
  s.data.foldr (fun c r => RegularExpression.char c * r) 1

/-- A character class such as [0-9], expanded to its member characters. -/
def charCls (cs : List Char) : RE :=
  cs.foldr (fun c r => RegularExpression.char c + r) 0

/-- An optional regex, r? in pattern syntax. -/
def optR (r : RE) : RE := r + 1

/-- Exactly n repetitions of r. -/
def repExact (r : RE) : Nat → RE
  | 0 => 1
  | n + 1 => r * repExact r n

/-- Counted repetition r{mn,mx}: mn required copies then (mx-mn) optional ones. -/
def repRange (r : RE) (mn mx : Nat) : RE :=
  repExact r mn * repExact (optR r) (mx - mn)

/-- Python re.match(pattern, s): true iff the pattern matches some prefix of s.
re.match is implicitly anchored at the start of the string but not at the end. -/
def pyReMatch (r : RE) (s : String) : Bool :=
  s.data.inits.any (fun p => r.rmatch p)

/-- A re.search-like query: the pattern matches somewhere (any substring) in s. -/
def pyReSearch (r : RE) (s : String) : Bool :=
  s.data.tails.any (fun t => t.inits.any (fun p => r.rmatch p))

/-- The boolean regex check used by every regex field validator in
pydantic_example.py (offset_obeys_regex, all_obeys_regex, email_obeys_regex):
each is written as re.match(regex, v) interpreted as a boolean. Pandera's
Check.str_matches in get_data.py uses the same re.match semantics. -/
def obeys_regex (r : RE) (v : String) : Bool := pyReMatch r v

/-- The character class [0-9]. -/
def digitCls : RE := charCls ['0','1','2','3','4','5','6','7','8','9']

/-- The character class [-\s\.] used in phone_no_regex: dash, Python whitespace
(space, tab, newline, carriage return, form feed, vertical tab), and dot. -/
def sepCls : RE := charCls ['-', ' ', '\t', '\n', '\r', '\x0c', '\x0b', '.']

/-- phone_no_regex from the source, shared by pydantic_example.py line 12 and
get_data.py line 58: the body of
the anchored pattern [\+]?[(]?[0-9]{2,4}[)]?[-\s\.]?[0-9]{3,4}[-\s\.]?[0-9]{3,6}
(the leading ^ and trailing $ anchors of the source pattern are represented by
applying this body with full-string matching, which is what re.match does with
a trailing $). -/
def phone_no_regex : RE :=
  optR (charCls ['+']) * optR (charCls ['(']) * repRange digitCls 2 4 *
    optR (charCls [')']) * optR sepCls * repRange digitCls 3 4 *
    optR sepCls * repRange digitCls 3 6

/- ===== Pydantic validators embedded from pydantic_example.py ===== -/

/-- The error message raised by every range validator in pydantic_example.py.
The source calls ValueError("must be in range [{min_value}, {max_value}]") with
a plain (non-f) string, so the braces and names are literal text and the actual
numeric bounds are never interpolated. -/
def range_message : String := "must be in range [{min_value}, {max_value}]"

namespace Street

/-- Street.age_is_in_range (pydantic_example.py lines 22-30): validator on the
street number with min_value = 0, max_value = 99999 and the strict comparison
min_value < v < max_value; on failure it raises ValueError with the literal
message, embedded here as an Except error value. -/
def age_is_in_range (v : Int) : Except String Int :=
  if (0 : Int) < v ∧ v < 99999 then Except.ok v
  else Except.error "must be in range [{min_value}, {max_value}]"

end Street

namespace Coordinates

/-- Coordinates.latitude_is_in_range (pydantic_example.py lines 37-45):
min_value = -90.0, max_value = 90.0, strict comparison. Latitude values are
embedded as rationals; the boundary values used by the claims are exactly
representable. -/
def latitude_is_in_range (v : ℚ) : Except String ℚ :=
  if (-90 : ℚ) < v ∧ v < 90 then Except.ok v
  else Except.error "must be in range [{min_value}, {max_value}]"

/-- Coordinates.longitude_is_in_range (pydantic_example.py lines 47-55):
min_value = -180.0, max_value = 180.0, strict comparison. -/
def longitude_is_in_range (v : ℚ) : Except String ℚ :=
  if (-180 : ℚ) < v ∧ v < 180 then Except.ok v
  else Except.error "must be in range [{min_value}, {max_value}]"

end Coordinates

namespace Dob

/-- Dob.date_is_in_range (pydantic_example.py lines 110-118): bounds are
datetime(1940,1,1,UTC) and datetime(2030,1,1,UTC), strict comparison.
Timezone-aware datetimes are totally ordered by their Unix timestamp, so they
are embedded as Unix seconds: -946771200 and 1893456000. -/
def date_is_in_range (v : Int) : Except String Int :=
  if (-946771200 : Int) < v ∧ v < 1893456000 then Except.ok v
  else Except.error "must be in range [{min_value}, {max_value}]"

/-- Dob.age_is_in_range (pydantic_example.py lines 120-128): min_value = 0,
max_value = 100, strict comparison min_value < v < max_value. -/
def age_is_in_range (v : Int) : Except String Int :=
  if (0 : Int) < v ∧ v < 100 then Except.ok v
  else Except.error "must be in range [{min_value}, {max_value}]"

end Dob

namespace Registered

/-- Registered.date_is_in_range (pydantic_example.py lines 135-143): bounds are
datetime(1990,1,1,UTC) = 631152000 and datetime(2030,1,1,UTC) = 1893456000
Unix seconds, strict comparison. -/
def date_is_in_range (v : Int) : Except String Int :=
  if (631152000 : Int) < v ∧ v < 1893456000 then Except.ok v
  else Except.error "must be in range [{min_value}, {max_value}]"

/-- Registered.age_is_in_range (pydantic_example.py lines 145-153): min_value
= 0, max_value = 100, strict comparison. -/
def age_is_in_range (v : Int) : Except String Int :=
  if (0 : Int) < v ∧ v < 100 then Except.ok v
  else Except.error "must be in range [{min_value}, {max_value}]"

end Registered

namespace Record

/-- In pydantic_example.py lines 212-220 the phone/cell regex validator
(phone_cell_obeys_regex) is commented out: the whole decorator block sits
inside a bare triple-quoted string literal, so it is never registered. The
Record model therefore declares phone and cell as plain str fields with no
constraint: every string value is accepted. -/
def phone_accepts (_v : String) : Bool := true

end Record

/- ===== Pandera schema checks embedded from get_data.py ===== -/

namespace PanderaSchema

/-- get_data.py line 85: pa.Check.in_range(0, 100) on column dob_age.
Pandera's in_range is inclusive on both bounds by default. -/
def dob_age_check (v : Int) : Bool := decide ((0 : Int) ≤ v ∧ v ≤ 100)

/-- get_data.py line 87: pa.Check.in_range(0, 100) on column registered_age. -/
def registered_age_check (v : Int) : Bool := decide ((0 : Int) ≤ v ∧ v ≤ 100)

/-- get_data.py line 93: pa.Check.in_range(1, 99999) on column
location_street_number. -/
def location_street_number_check (v : Int) : Bool :=
  decide ((1 : Int) ≤ v ∧ v ≤ 99999)

/-- get_data.py line 95: pa.Check.in_range(-90.0, 90.0) on column
location_coordinates_latitude, inclusive. -/
def location_coordinates_latitude_check (v : ℚ) : Bool :=
  decide ((-90 : ℚ) ≤ v ∧ v ≤ 90)

/-- get_data.py line 96: pa.Check.in_range(-180.0, 180.0) on column
location_coordinates_longitude, inclusive. -/
def location_coordinates_longitude_check (v : ℚ) : Bool :=
  decide ((-180 : ℚ) ≤ v ∧ v ≤ 180)

/-- get_data.py lines 67-68: pa.Check.str_matches(phone_no_regex) on the phone
and cell columns. str_matches uses re.match; since phone_no_regex is anchored
with ^ and $, the check is full-string matching of the pattern body. -/
def phone_check (v : String) : Bool := phone_no_regex.rmatch v.data

end PanderaSchema

/- ===== The schema validation engine, modelled from the spec =====

The repository's validation core is realised through the pydantic and pandera
libraries; the declarative SchemaNode/FieldSpec/Constraint data model, the
Validator with its two modes, and the SchemaCodec of the specification are not
present under src/, so they are modelled here from the specification text. -/

/-- Modelled from the spec: PrimitiveType (section 3) — String, Integer, Float,
Boolean, Timestamp. Per section 4.4 a timestamp type carries an explicit
timezone-awareness flag (no timezone vs UTC-aware). -/
inductive Prim where
  | string
  | integer
  | float
  | boolean
  | timestamp (tzAware : Bool)
deriving DecidableEq

/-- Modelled from the spec: Constraint (section 3) — a tagged variant over
Range (with inclusive_bounds flag), Regex (stored compiled), LengthBounds and
SetMembership, each owning its parameters immutably. -/
inductive Constraint where
  | range (min max : Int) (inclusiveBounds : Bool)
  | regex (pattern : RE)
  | lengthBounds (min max : Nat)
  | setMembership (allowed : List String)

mutual
/-- Modelled from the spec: SchemaNode (section 3) — a named ordered collection
of FieldSpecs; nested nodes are owned by value, so acyclicity is automatic. -/
inductive SchemaNode where
  | node (name : String) (fields : FieldList)

/-- The ordered field list of a SchemaNode. -/
inductive FieldList where
  | nil
  | cons (head : FieldSpec) (tail : FieldList)

/-- Modelled from the spec: FieldSpec (section 3) — name, declared type
(primitive or nested SchemaNode), nullability, constraints and the
allow_coercion flag. Constraints apply only to primitive-typed fields
(section 3 invariant), so the nested-schema form carries none. -/
inductive FieldSpec where
  | prim (name : String) (ptype : Prim) (nullable : Bool)
      (constraints : List Constraint) (allowCoercion : Bool)
  | child (name : String) (sub : SchemaNode) (nullable : Bool)
end

/-- The name of a field, for lookup in the input record. -/
def FieldSpec.name : FieldSpec → String
  | .prim n _ _ _ _ => n
  | .child n _ _ => n

/-- The declared field names of a field list, in order. -/
def FieldList.names : FieldList → List String
  | .nil => []
  | .cons f rest => f.name :: rest.names

/-- The top-level declared field names of a SchemaNode. -/
def SchemaNode.fieldNames : SchemaNode → List String
  | .node _ fields => fields.names

/-- Modelled from the spec: an input record value (section 6) — a JSON-like
nested value: null, scalar, or mapping. Floats are embedded as rationals and
timestamps as integers. -/
inductive Value where
  | vnull
  | vstr (s : String)
  | vint (i : Int)
  | vfloat (q : ℚ)
  | vbool (b : Bool)
  | vtimestamp (t : Int)
  | vobj (fields : List (String × Value))

/-- Modelled from the spec: the four validation-time error kinds (section 7):
MissingRequiredField, TypeMismatch, CoercionFailure and ConstraintViolation
(carrying the violated constraint's description). -/
inductive ErrKind where
  | missingRequiredField
  | typeMismatch
  | coercionFailure
  | constraintViolation (desc : String)
deriving DecidableEq

/-- Modelled from the spec: ValidationError (section 3) — field path from the
record root, error kind, the offending value rendered as a display string, and
a human-readable message. -/
structure ValidationError where
  fieldPath : List String
  kind : ErrKind
  observedValue : String
  message : String
deriving DecidableEq

/-- Whether a raw value's concrete type exactly matches the declared primitive
type (section 4.2). -/
def typeMatches : Prim → Value → Bool
  | .string, .vstr _ => true
  | .integer, .vint _ => true
  | .float, .vfloat _ => true
  | .boolean, .vbool _ => true
  | .timestamp _, .vtimestamp _ => true
  | _, _ => false

/-- Modelled from the spec: the legal coercion source table (section 4.2):
String accepts Integer and Float sources; Timestamp accepts an ISO-8601
formatted String. -/
def isLegalSource : Prim → Value → Bool
  | .string, .vint _ => true
  | .string, .vfloat _ => true
  | .timestamp _, .vstr _ => true
  | _, _ => false

/-- Modelled from the spec: ISO-8601 timestamp parsing for the Timestamp
coercion source (section 4.2); the repository's acquisition code relies on
pandas to_datetime for this. Modelled for date-only ISO-8601 strings
YYYY-MM-DD, converted to the integer YYYYMMDD; a malformed string yields
none, which the resolver reports as a CoercionFailure. -/
def parseIsoDate (s : String) : Option Int :=
  match s.data with
  | [y1, y2, y3, y4, '-', m1, m2, '-', d1, d2] =>
    if y1.isDigit && y2.isDigit && y3.isDigit && y4.isDigit &&
        m1.isDigit && m2.isDigit && d1.isDigit && d2.isDigit then
      some (Int.ofNat ((((((y1.toNat - 48) * 10 + (y2.toNat - 48)) * 10 +
        (y3.toNat - 48)) * 10 + (y4.toNat - 48)) * 10000) +
        ((m1.toNat - 48) * 10 + (m2.toNat - 48)) * 100 +
        ((d1.toNat - 48) * 10 + (d2.toNat - 48))))
    else none
  | _ => none

/-- Modelled from the spec: attempted conversion from a legal coercion source
(section 4.2) — integer 1234 becomes the string "1234"; an ISO-8601 string
becomes a Timestamp. -/
def coerceValue : Prim → Value → Option Value
  | .string, .vint i => some (.vstr (toString i))
  | .string, .vfloat q => some (.vstr (toString q))
  | .timestamp _, .vstr s => (parseIsoDate s).map .vtimestamp
  | _, _ => none

/-- The two failure outcomes of type resolution (section 4.2). -/
inductive ResolveFailure where
  | typeMismatch
  | coercionFailure
deriving DecidableEq

/-- Modelled from the spec: the type/coercion resolution algorithm of section
4.2 — exact type match is accepted unchanged; otherwise, with coercion allowed
and a registered legal source, conversion is attempted (failure being a
CoercionFailure); anything else is a TypeMismatch. -/
def resolveValue (p : Prim) (allowCoercion : Bool) (v : Value) :
    Except ResolveFailure Value :=
  if typeMatches p v then .ok v
  else if allowCoercion && isLegalSource p v then
    match coerceValue p v with
    | some v2 => .ok v2
    | none => .error .coercionFailure
  else .error .typeMismatch

/-- Rendering of an observed value as a display string (section 3). -/
def renderValue : Value → String
  | .vnull => "null"
  | .vstr s => s
  | .vint i => toString i
  | .vfloat q => toString q
  | .vbool b => toString b
  | .vtimestamp t => toString t
  | .vobj _ => "<object>"

/-- Range evaluation (section 4.1): strict or inclusive bounds per the
inclusive_bounds flag, on numeric values only; applying a Range constraint to
a non-numeric value is a construction-time error per the spec, so the runtime
check passes such values through. -/
def rangeHolds (mn mx : Int) (inclusiveBounds : Bool) : Value → Bool
  | .vint i =>
    if inclusiveBounds then decide (mn ≤ i ∧ i ≤ mx) else decide (mn < i ∧ i < mx)
  | .vtimestamp t =>
    if inclusiveBounds then decide (mn ≤ t ∧ t ≤ mx) else decide (mn < t ∧ t < mx)
  | .vfloat q =>
    if inclusiveBounds then decide ((mn : ℚ) ≤ q ∧ q ≤ (mx : ℚ))
    else decide ((mn : ℚ) < q ∧ q < (mx : ℚ))
  | _ => true

/-- The fixed human-readable failure description owned by each constraint
(section 3). -/
def constraintDesc : Constraint → String
  | .range _ _ _ => "value out of range"
  | .regex _ => "failed regex check"
  | .lengthBounds _ _ => "length out of bounds"
  | .setMembership _ => "value not in allowed set"

/-- Modelled from the spec: Constraint evaluation (section 4.1) — a pure
pass/fail predicate over one value: Range per its bounds flag, Regex per the
stored pattern with re.match semantics, LengthBounds in characters,
SetMembership as case-sensitive exact membership. -/
def evalConstraint : Constraint → Value → Bool
  | .range mn mx incl, v => rangeHolds mn mx incl v
  | .regex r, .vstr s => pyReMatch r s
  | .regex _, _ => true
  | .lengthBounds mn mx, .vstr s => decide (mn ≤ s.length ∧ s.length ≤ mx)
  | .lengthBounds _ _, _ => true
  | .setMembership allowed, .vstr s => allowed.contains s
  | .setMembership _, _ => true

/-- The ValidationError produced when a constraint fails, none when it
passes. -/
def constraintFailure (path : List String) (v : Value) (c : Constraint) :
    Option ValidationError :=
  if evalConstraint c v then none
  else some ⟨path, .constraintViolation (constraintDesc c), renderValue v,
    constraintDesc c⟩

/-- All constraint violations for one field value, in declared constraint
order (section 4.3 step 5, collect-all). -/
def constraintErrors (path : List String) (cs : List Constraint) (v : Value) :
    List ValidationError :=
  cs.filterMap (constraintFailure path v)

/-- The first constraint violation for one field value (section 4.3 step 5,
fail-fast). -/
def firstConstraintError (path : List String) (cs : List Constraint)
    (v : Value) : Option ValidationError :=
  cs.findSome? (constraintFailure path v)

/-- The MissingRequiredField error for a field path. -/
def missingError (path : List String) : ValidationError :=
  ⟨path, .missingRequiredField, "<missing>", "missing required field"⟩

mutual
/-- Modelled from the spec: the Validator in collect-all mode (section 4.3):
recursive traversal of a record against a SchemaNode accumulating every
violation. -/
def validateNode : List String → SchemaNode → List (String × Value) →
    List ValidationError
  | path, .node _ fields, r => validateFields path fields r

/-- Collect-all traversal of a field list in declared order (section 4.3);
each field's value is looked up by name, fields absent from the record are
reported through the per-field step, and record entries not named by any
field are never consulted. -/
def validateFields : List String → FieldList → List (String × Value) →
    List ValidationError
  | _, .nil, _ => []
  | path, .cons f rest, r =>
    validateField path f (r.lookup f.name) ++ validateFields path rest r

/-- Collect-all handling of a single field (section 4.3 steps 1-5): missing or
null values against nullability, then type resolution/coercion, then nested
recursion or constraint evaluation on the possibly-coerced value. -/
def validateField : List String → FieldSpec → Option Value →
    List ValidationError
  | path, .prim name p nullable cs allowCoercion, mv =>
    (match mv with
    | none => if nullable then [] else [missingError (path ++ [name])]
    | some .vnull => if nullable then [] else [missingError (path ++ [name])]
    | some v =>
      match resolveValue p allowCoercion v with
      | .error .typeMismatch =>
          [⟨path ++ [name], .typeMismatch, renderValue v, "type mismatch"⟩]
      | .error .coercionFailure =>
          [⟨path ++ [name], .coercionFailure, renderValue v, "coercion failure"⟩]
      | .ok v2 => constraintErrors (path ++ [name]) cs v2)
  | path, .child name sub nullable, mv =>
    (match mv with
    | none => if nullable then [] else [missingError (path ++ [name])]
    | some .vnull => if nullable then [] else [missingError (path ++ [name])]
    | some (.vobj obj) => validateNode (path ++ [name]) sub obj
    | some v =>
        [⟨path ++ [name], .typeMismatch, renderValue v,
          "expected a nested object"⟩])
end

mutual
/-- Modelled from the spec: the Validator in fail-fast mode (section 4.3):
the traversal returns on the first ValidationError encountered. -/
def firstErrorNode : List String → SchemaNode → List (String × Value) →
    Option ValidationError
  | path, .node _ fields, r => firstErrorFields path fields r

/-- Fail-fast traversal of a field list: the first field yielding an error
halts the walk. -/
def firstErrorFields : List String → FieldList → List (String × Value) →
    Option ValidationError
  | _, .nil, _ => none
  | path, .cons f rest, r =>
    match firstErrorField path f (r.lookup f.name) with
    | some e => some e
    | none => firstErrorFields path rest r

/-- Fail-fast handling of a single field, mirroring validateField with the
first failure only. -/
def firstErrorField : List String → FieldSpec → Option Value →
    Option ValidationError
  | path, .prim name p nullable cs allowCoercion, mv =>
    (match mv with
    | none => if nullable then none else some (missingError (path ++ [name]))
    | some .vnull =>
      if nullable then none else some (missingError (path ++ [name]))
    | some v =>
      match resolveValue p allowCoercion v with
      | .error .typeMismatch =>
          some ⟨path ++ [name], .typeMismatch, renderValue v, "type mismatch"⟩
      | .error .coercionFailure =>
          some ⟨path ++ [name], .coercionFailure, renderValue v,
            "coercion failure"⟩
      | .ok v2 => firstConstraintError (path ++ [name]) cs v2)
  | path, .child name sub nullable, mv =>
    (match mv with
    | none => if nullable then none else some (missingError (path ++ [name]))
    | some .vnull =>
      if nullable then none else some (missingError (path ++ [name]))
    | some (.vobj obj) => firstErrorNode (path ++ [name]) sub obj
    | some v =>
        some ⟨path ++ [name], .typeMismatch, renderValue v,
          "expected a nested object"⟩)
end

/-- Modelled from the spec: the two validation modes (sections 4.3 and 7). -/
inductive Mode where
  | failFast
  | collectAll
deriving DecidableEq

/-- Modelled from the spec: the Validator entry point — a total function from
a mode, schema and record to a ValidationReport (an ordered error list); every
validation-time failure is a value in the report, never an exception. -/
def validate (mode : Mode) (s : SchemaNode) (r : List (String × Value)) :
    List ValidationError :=
  match mode with
  | .collectAll => validateNode [] s r
  | .failFast =>
    match firstErrorNode [] s r with
    | some e => [e]
    | none => []

/-- A batch run: each record of the batch is validated independently and gets
its own report. -/
def validateBatch (mode : Mode) (s : SchemaNode)
    (rs : List (List (String × Value))) : List (List ValidationError) :=
  rs.map (validate mode s)

/- ===== Engine lemmas: fail-fast is the head of collect-all ===== -/

/-- findSome? returns the head of the filterMap over the same function. -/
theorem findSome?_eq_head?_filterMap {α β : Type} (f : α → Option β)
    (l : List α) : l.findSome? f = (l.filterMap f).head? := by
  induction l with
  | nil => rfl
  | cons a t ih =>
    rw [List.findSome?, List.filterMap]
    cases f a with
    | none => simp only [List.head?]; exact ih
    | some b => simp

/-- The first constraint violation is the head of the full violation list. -/
theorem firstConstraintError_eq_head (path : List String)
    (cs : List Constraint) (v : Value) :
    firstConstraintError path cs v = (constraintErrors path cs v).head? :=
  findSome?_eq_head?_filterMap _ cs

mutual
/-- Fail-fast node traversal returns exactly the first error that collect-all
node traversal would report. -/
theorem firstErrorNode_eq_head (path : List String) (s : SchemaNode)
    (r : List (String × Value)) :
    firstErrorNode path s r = (validateNode path s r).head? := by
  match s with
  | .node n fields =>
    rw [firstErrorNode, validateNode]
    exact firstErrorFields_eq_head path fields r

/-- Fail-fast field-list traversal returns the head of the collect-all
report. -/
theorem firstErrorFields_eq_head (path : List String) (fields : FieldList)
    (r : List (String × Value)) :
    firstErrorFields path fields r = (validateFields path fields r).head? := by
  match fields with
  | .nil => rfl
  | .cons f rest =>
    rw [firstErrorFields, validateFields, List.head?_append,
      firstErrorField_eq_head path f (r.lookup f.name),
      firstErrorFields_eq_head path rest r]
    cases (validateField path f (r.lookup f.name)).head? <;> simp [Option.or]

/-- Fail-fast field handling returns the head of the collect-all field
report. -/
theorem firstErrorField_eq_head (path : List String) (f : FieldSpec)
    (mv : Option Value) :
    firstErrorField path f mv = (validateField path f mv).head? := by
  match f with
  | .prim name p nullable cs allowCoercion =>
    simp only [firstErrorField.eq_def, validateField.eq_def]
    match mv with
    | none => cases nullable <;> simp
    | some .vnull => cases nullable <;> simp
    | some (.vstr s) =>
      cases h : resolveValue p allowCoercion (.vstr s) with
      | ok v2 => simp [h, firstConstraintError_eq_head]
      | error e => cases e <;> simp [h]
    | some (.vint i) =>
      cases h : resolveValue p allowCoercion (.vint i) with
      | ok v2 => simp [h, firstConstraintError_eq_head]
      | error e => cases e <;> simp [h]
    | some (.vfloat q) =>
      cases h : resolveValue p allowCoercion (.vfloat q) with
      | ok v2 => simp [h, firstConstraintError_eq_head]
      | error e => cases e <;> simp [h]
    | some (.vbool b) =>
      cases h : resolveValue p allowCoercion (.vbool b) with
      | ok v2 => simp [h, firstConstraintError_eq_head]
      | error e => cases e <;> simp [h]
    | some (.vtimestamp t) =>
      cases h : resolveValue p allowCoercion (.vtimestamp t) with
      | ok v2 => simp [h, firstConstraintError_eq_head]
      | error e => cases e <;> simp [h]
    | some (.vobj obj) =>
      cases h : resolveValue p allowCoercion (.vobj obj) with
      | ok v2 => simp [h, firstConstraintError_eq_head]
      | error e => cases e <;> simp [h]
  | .child name sub nullable =>
    simp only [firstErrorField.eq_def, validateField.eq_def]
    match mv with
    | none => cases nullable <;> simp
    | some .vnull => cases nullable <;> simp
    | some (.vstr s) => simp
    | some (.vint i) => simp
    | some (.vfloat q) => simp
    | some (.vbool b) => simp
    | some (.vtimestamp t) => simp
    | some (.vobj obj) => exact firstErrorNode_eq_head (path ++ [name]) sub obj
end

/- ===== Engine lemmas: record entries not named by the schema ===== -/

/-- Prepending a binding for a different key does not change a lookup. -/
theorem lookup_cons_of_ne {β : Type} (k a : String) (v : β)
    (l : List (String × β)) (h : a ≠ k) :
    ((k, v) :: l).lookup a = l.lookup a := by
  have hb : (a == k) = false := by simp [h]
  simp [List.lookup, hb]

/-- Collect-all traversal ignores a record entry whose key no field
declares. -/
theorem validateFields_undeclared (k : String) (v : Value)
    (path : List String) (fields : FieldList) (r : List (String × Value))
    (h : k ∉ fields.names) :
    validateFields path fields ((k, v) :: r) = validateFields path fields r := by
  match fields with
  | .nil => rfl
  | .cons f rest =>
    have hne : f.name ≠ k := by
      intro he
      exact h (by simp [FieldList.names, he])
    have htail : k ∉ rest.names := by
      intro hm
      exact h (by simp [FieldList.names, hm])
    rw [validateFields, validateFields, lookup_cons_of_ne _ _ _ _ hne,
      validateFields_undeclared k v path rest r htail]

/-- Fail-fast traversal ignores a record entry whose key no field declares. -/
theorem firstErrorFields_undeclared (k : String) (v : Value)
    (path : List String) (fields : FieldList) (r : List (String × Value))
    (h : k ∉ fields.names) :
    firstErrorFields path fields ((k, v) :: r) =
      firstErrorFields path fields r := by
  match fields with
  | .nil => rfl
  | .cons f rest =>
    have hne : f.name ≠ k := by
      intro he
      exact h (by simp [FieldList.names, he])
    have htail : k ∉ rest.names := by
      intro hm
      exact h (by simp [FieldList.names, hm])
    rw [firstErrorFields, firstErrorFields, lookup_cons_of_ne _ _ _ _ hne,
      firstErrorFields_undeclared k v path rest r htail]

/- ===== The SchemaCodec, modelled from the spec =====

In the repository, schema persistence is done through pandera.io.to_yaml and
pandera.io.from_yaml (an external library); write_validation_schema in
get_data.py additionally patches the produced text, replacing the dtype
datetime64[ns] with datetime64[ns, UTC], precisely so that the
timezone-awareness of timestamp columns survives the round trip. The
SchemaCodec component itself is therefore modelled from the spec (section
4.4): a serializer to a textual form and a parser back, representing every
primitive type (with the timestamp timezone-awareness attribute), every
constraint kind with its parameters, nullability, the coercion flag and
nesting. Naturals are written in unary followed by a semicolon; strings are
length-prefixed; every composite is tagged by a leading character, so the
format is self-delimiting and unambiguous. -/

/-- Serialize a natural number: n ones followed by a semicolon. -/
def serNatU : Nat → List Char
  | 0 => [';']
  | n + 1 => '1' :: serNatU n

/-- Parse a unary natural number. -/
def parseNatU : List Char → Option (Nat × List Char)
  | ';' :: rest => some (0, rest)
  | '1' :: rest =>
    match parseNatU rest with
    | some (n, r) => some (n + 1, r)
    | none => none
  | _ => none

/-- Round trip for naturals. -/
theorem parseNatU_ser (n : Nat) (rest : List Char) :
    parseNatU (serNatU n ++ rest) = some (n, rest) := by
  induction n with
  | zero => rfl
  | succ k ih => rw [serNatU, List.cons_append, parseNatU, ih]

/-- A serialized natural is never empty. -/
theorem serNatU_length_pos (n : Nat) : 0 < (serNatU n).length := by
  cases n <;> simp [serNatU]

/-- Serialize a boolean as a single tag character. -/
def serBoolCh (b : Bool) : List Char := if b then ['T'] else ['F']

/-- Parse a boolean tag character. -/
def parseBoolCh : List Char → Option (Bool × List Char)
  | 'T' :: rest => some (true, rest)
  | 'F' :: rest => some (false, rest)
  | _ => none

/-- Round trip for booleans. -/
theorem parseBoolCh_ser (b : Bool) (rest : List Char) :
    parseBoolCh (serBoolCh b ++ rest) = some (b, rest) := by
  cases b <;> rfl

/-- Split off exactly n characters. -/
def splitN : Nat → List Char → Option (List Char × List Char)
  | 0, input => some ([], input)
  | n + 1, c :: rest =>
    match splitN n rest with
    | some (xs, r) => some (c :: xs, r)
    | none => none
  | _ + 1, [] => none

/-- Splitting off the length of a known prefix recovers it exactly. -/
theorem splitN_ser (l rest : List Char) :
    splitN l.length (l ++ rest) = some (l, rest) := by
  induction l with
  | nil => rfl
  | cons c t ih =>
    simp only [List.length_cons, List.cons_append]
    rw [splitN, ih]

/-- Serialize a string: unary length prefix then the raw characters, so any
character content round-trips. -/
def serStr (s : String) : List Char := serNatU s.data.length ++ s.data

/-- Parse a length-prefixed string. -/
def parseStr (input : List Char) : Option (String × List Char) :=
  match parseNatU input with
  | some (n, r1) =>
    match splitN n r1 with
    | some (cs, r2) => some (String.mk cs, r2)
    | none => none
  | none => none

/-- Round trip for strings. -/
theorem parseStr_ser (s : String) (rest : List Char) :
    parseStr (serStr s ++ rest) = some (s, rest) := by
  unfold parseStr serStr
  rw [List.append_assoc, parseNatU_ser]
  simp only
  rw [splitN_ser]

/-- A serialized string is never empty. -/
theorem serStr_length_pos (s : String) : 0 < (serStr s).length := by
  unfold serStr
  rw [List.length_append]
  have := serNatU_length_pos s.data.length
  omega

/-- Serialize an integer: a sign tag and the unary magnitude (negSucc n for
negatives, so the encoding is an exact bijection). -/
def serIntS : Int → List Char
  | Int.ofNat n => '+' :: serNatU n
  | Int.negSucc n => '-' :: serNatU n

/-- Parse a sign-tagged integer. -/
def parseIntS : List Char → Option (Int × List Char)
  | '+' :: rest =>
    match parseNatU rest with
    | some (n, r) => some (Int.ofNat n, r)
    | none => none
  | '-' :: rest =>
    match parseNatU rest with
    | some (n, r) => some (Int.negSucc n, r)
    | none => none
  | _ => none

/-- Round trip for integers. -/
theorem parseIntS_ser (i : Int) (rest : List Char) :
    parseIntS (serIntS i ++ rest) = some (i, rest) := by
  cases i <;> simp only [serIntS, List.cons_append] <;>
    rw [parseIntS, parseNatU_ser]

/-- Serialize a regular expression, tagging each constructor. -/
def serRegex : RE → List Char
  | .zero => ['z']
  | .epsilon => ['e']
  | .char c => ['c', c]
  | .plus a b => 'a' :: (serRegex a ++ serRegex b)
  | .comp a b => 'q' :: (serRegex a ++ serRegex b)
  | .star a => 's' :: serRegex a

/-- Parse a serialized regular expression; the fuel argument is instantiated
with the input length by callers, which the round-trip lemma shows is always
sufficient. -/
def parseRegexF : Nat → List Char → Option (RE × List Char)
  | 0, _ => none
  | _ + 1, 'z' :: rest => some (.zero, rest)
  | _ + 1, 'e' :: rest => some (.epsilon, rest)
  | _ + 1, 'c' :: c :: rest => some (.char c, rest)
  | fuel + 1, 'a' :: rest =>
    match parseRegexF fuel rest with
    | some (a, r1) =>
      match parseRegexF fuel r1 with
      | some (b, r2) => some (.plus a b, r2)
      | none => none
    | none => none
  | fuel + 1, 'q' :: rest =>
    match parseRegexF fuel rest with
    | some (a, r1) =>
      match parseRegexF fuel r1 with
      | some (b, r2) => some (.comp a b, r2)
      | none => none
    | none => none
  | fuel + 1, 's' :: rest =>
    match parseRegexF fuel rest with
    | some (a, r1) => some (.star a, r1)
    | none => none
  | _ + 1, _ => none

/-- A serialized regular expression is never empty. -/
theorem serRegex_length_pos (r : RE) : 0 < (serRegex r).length := by
  cases r <;> simp [serRegex]

/-- Round trip for regular expressions, for any fuel at least the serialized
length. -/
theorem parseRegexF_ser (r : RE) :
    ∀ (fuel : Nat) (rest : List Char), (serRegex r).length ≤ fuel →
      parseRegexF fuel (serRegex r ++ rest) = some (r, rest) := by
  induction r with
  | zero =>
    intro fuel rest h
    cases fuel with
    | zero => simp [serRegex] at h
    | succ fuel => rfl
  | epsilon =>
    intro fuel rest h
    cases fuel with
    | zero => simp [serRegex] at h
    | succ fuel => rfl
  | char c =>
    intro fuel rest h
    cases fuel with
    | zero => simp [serRegex] at h
    | succ fuel => rfl
  | plus a b iha ihb =>
    intro fuel rest h
    simp only [serRegex, List.length_cons, List.length_append] at h
    have ha := serRegex_length_pos a
    have hb := serRegex_length_pos b
    cases fuel with
    | zero => omega
    | succ fuel =>
      simp only [serRegex, List.cons_append, List.append_assoc]
      rw [parseRegexF, iha fuel _ (by omega)]
      simp only
      rw [ihb fuel rest (by omega)]
  | comp a b iha ihb =>
    intro fuel rest h
    simp only [serRegex, List.length_cons, List.length_append] at h
    have ha := serRegex_length_pos a
    have hb := serRegex_length_pos b
    cases fuel with
    | zero => omega
    | succ fuel =>
      simp only [serRegex, List.cons_append, List.append_assoc]
      rw [parseRegexF, iha fuel _ (by omega)]
      simp only
      rw [ihb fuel rest (by omega)]
  | star a iha =>
    intro fuel rest h
    simp only [serRegex, List.length_cons] at h
    cases fuel with
    | zero => omega
    | succ fuel =>
      simp only [serRegex, List.cons_append]
      rw [parseRegexF, iha fuel rest (by omega)]

/-- Serialize a primitive type; the timestamp tag carries the
timezone-awareness flag. -/
def serPrim : Prim → List Char
  | .string => ['S']
  | .integer => ['I']
  | .float => ['F']
  | .boolean => ['B']
  | .timestamp tz => 'T' :: serBoolCh tz

/-- Parse a primitive type tag. -/
def parsePrim : List Char → Option (Prim × List Char)
  | 'S' :: rest => some (.string, rest)
  | 'I' :: rest => some (.integer, rest)
  | 'F' :: rest => some (.float, rest)
  | 'B' :: rest => some (.boolean, rest)
  | 'T' :: rest =>
    match parseBoolCh rest with
    | some (tz, r) => some (.timestamp tz, r)
    | none => none
  | _ => none

/-- Round trip for primitive types, including the timezone-awareness flag. -/
theorem parsePrim_ser (p : Prim) (rest : List Char) :
    parsePrim (serPrim p ++ rest) = some (p, rest) := by
  cases p with
  | timestamp tz => cases tz <;> rfl
  | _ => rfl

/-- Serialize a list of strings, self-delimited by tags. -/
def serStrList : List String → List Char
  | [] => ['e']
  | s :: ss => 'k' :: (serStr s ++ serStrList ss)

/-- Parse a self-delimited list of strings. -/
def parseStrListF : Nat → List Char → Option (List String × List Char)
  | 0, _ => none
  | _ + 1, 'e' :: rest => some ([], rest)
  | fuel + 1, 'k' :: rest =>
    match parseStr rest with
    | some (s, r1) =>
      match parseStrListF fuel r1 with
      | some (ss, r2) => some (s :: ss, r2)
      | none => none
    | none => none
  | _ + 1, _ => none

/-- Round trip for string lists. -/
theorem parseStrListF_ser (ss : List String) :
    ∀ (fuel : Nat) (rest : List Char), (serStrList ss).length ≤ fuel →
      parseStrListF fuel (serStrList ss ++ rest) = some (ss, rest) := by
  induction ss with
  | nil =>
    intro fuel rest h
    cases fuel with
    | zero => simp [serStrList] at h
    | succ fuel => rfl
  | cons s t ih =>
    intro fuel rest h
    simp only [serStrList, List.length_cons, List.length_append] at h
    have hs := serStr_length_pos s
    cases fuel with
    | zero => omega
    | succ fuel =>
      simp only [serStrList, List.cons_append, List.append_assoc]
      rw [parseStrListF, parseStr_ser]
      simp only
      rw [ih fuel rest (by omega)]

/-- Serialize a constraint with all its parameters. -/
def serConstraint : Constraint → List Char
  | .range mn mx incl => 'R' :: (serIntS mn ++ serIntS mx ++ serBoolCh incl)
  | .regex p => 'X' :: serRegex p
  | .lengthBounds mn mx => 'L' :: (serNatU mn ++ serNatU mx)
  | .setMembership allowed => 'M' :: serStrList allowed

/-- Parse a constraint. -/
def parseConstraint : List Char → Option (Constraint × List Char)
  | 'R' :: rest =>
    match parseIntS rest with
    | some (mn, r1) =>
      match parseIntS r1 with
      | some (mx, r2) =>
        match parseBoolCh r2 with
        | some (incl, r3) => some (.range mn mx incl, r3)
        | none => none
      | none => none
    | none => none
  | 'X' :: rest =>
    match parseRegexF rest.length rest with
    | some (p, r1) => some (.regex p, r1)
    | none => none
  | 'L' :: rest =>
    match parseNatU rest with
    | some (mn, r1) =>
      match parseNatU r1 with
      | some (mx, r2) => some (.lengthBounds mn mx, r2)
      | none => none
    | none => none
  | 'M' :: rest =>
    match parseStrListF rest.length rest with
    | some (allowed, r1) => some (.setMembership allowed, r1)
    | none => none
  | _ => none

/-- Round trip for constraints: every constraint kind and its parameters are
recovered exactly. -/
theorem parseConstraint_ser (c : Constraint) (rest : List Char) :
    parseConstraint (serConstraint c ++ rest) = some (c, rest) := by
  cases c with
  | range mn mx incl =>
    simp only [serConstraint, List.cons_append, List.append_assoc]
    rw [parseConstraint, parseIntS_ser]
    simp only
    rw [parseIntS_ser]
    simp only
    rw [parseBoolCh_ser]
  | regex p =>
    simp only [serConstraint, List.cons_append]
    rw [parseConstraint,
      parseRegexF_ser p (serRegex p ++ rest).length rest (by simp)]
  | lengthBounds mn mx =>
    simp only [serConstraint, List.cons_append, List.append_assoc]
    rw [parseConstraint, parseNatU_ser]
    simp only
    rw [parseNatU_ser]
  | setMembership allowed =>
    simp only [serConstraint, List.cons_append]
    rw [parseConstraint,
      parseStrListF_ser allowed (serStrList allowed ++ rest).length rest
        (by simp)]

/-- Serialize an ordered constraint list, self-delimited by tags. -/
def serConstraintList : List Constraint → List Char
  | [] => ['e']
  | c :: cs => 'k' :: (serConstraint c ++ serConstraintList cs)

/-- Parse a self-delimited constraint list. -/
def parseConstraintListF : Nat → List Char → Option (List Constraint × List Char)
  | 0, _ => none
  | _ + 1, 'e' :: rest => some ([], rest)
  | fuel + 1, 'k' :: rest =>
    match parseConstraint rest with
    | some (c, r1) =>
      match parseConstraintListF fuel r1 with
      | some (cs, r2) => some (c :: cs, r2)
      | none => none
    | none => none
  | _ + 1, _ => none

/-- A serialized constraint is never empty. -/
theorem serConstraint_length_pos (c : Constraint) :
    0 < (serConstraint c).length := by
  cases c <;> simp [serConstraint]

/-- Round trip for constraint lists, preserving order. -/
theorem parseConstraintListF_ser (cs : List Constraint) :
    ∀ (fuel : Nat) (rest : List Char), (serConstraintList cs).length ≤ fuel →
      parseConstraintListF fuel (serConstraintList cs ++ rest) =
        some (cs, rest) := by
  induction cs with
  | nil =>
    intro fuel rest h
    cases fuel with
    | zero => simp [serConstraintList] at h
    | succ fuel => rfl
  | cons c t ih =>
    intro fuel rest h
    simp only [serConstraintList, List.length_cons, List.length_append] at h
    have hc := serConstraint_length_pos c
    cases fuel with
    | zero => omega
    | succ fuel =>
      simp only [serConstraintList, List.cons_append, List.append_assoc]
      rw [parseConstraintListF, parseConstraint_ser]
      simp only
      rw [ih fuel rest (by omega)]

mutual
/-- Serialize a SchemaNode: its name and its field list. -/
def serNode : SchemaNode → List Char
  | .node name fields => serStr name ++ serFields fields

/-- Serialize a field list, self-delimited by tags. -/
def serFields : FieldList → List Char
  | .nil => ['n']
  | .cons f rest => 'f' :: (serFieldSpec f ++ serFields rest)

/-- Serialize one field: its name, declared type, nullability, constraints
and coercion flag for a primitive field; its name, sub-schema and nullability
for a nested field. -/
def serFieldSpec : FieldSpec → List Char
  | .prim name p nullable cs allowCoercion =>
    'p' :: (serStr name ++ serPrim p ++ serBoolCh nullable ++
      serConstraintList cs ++ serBoolCh allowCoercion)
  | .child name sub nullable =>
    'c' :: (serStr name ++ serNode sub ++ serBoolCh nullable)
end

mutual
/-- Parse a serialized SchemaNode (fuel instantiated with the input length by
the top-level parser). -/
def parseNodeF : Nat → List Char → Option (SchemaNode × List Char)
  | 0, _ => none
  | fuel + 1, input =>
    match parseStr input with
    | some (name, r1) =>
      match parseFieldsF fuel r1 with
      | some (fields, r2) => some (.node name fields, r2)
      | none => none
    | none => none

/-- Parse a serialized field list. -/
def parseFieldsF : Nat → List Char → Option (FieldList × List Char)
  | 0, _ => none
  | _ + 1, 'n' :: rest => some (.nil, rest)
  | fuel + 1, 'f' :: rest =>
    match parseFieldSpecF fuel rest with
    | some (f, r1) =>
      match parseFieldsF fuel r1 with
      | some (fs, r2) => some (.cons f fs, r2)
      | none => none
    | none => none
  | _ + 1, _ => none

/-- Parse one serialized field. -/
def parseFieldSpecF : Nat → List Char → Option (FieldSpec × List Char)
  | 0, _ => none
  | _ + 1, 'p' :: rest =>
    match parseStr rest with
    | some (name, r1) =>
      match parsePrim r1 with
      | some (p, r2) =>
        match parseBoolCh r2 with
        | some (nullable, r3) =>
          match parseConstraintListF r3.length r3 with
          | some (cs, r4) =>
            match parseBoolCh r4 with
            | some (allowCoercion, r5) =>
              some (.prim name p nullable cs allowCoercion, r5)
            | none => none
          | none => none
        | none => none
      | none => none
    | none => none
  | fuel + 1, 'c' :: rest =>
    match parseStr rest with
    | some (name, r1) =>
      match parseNodeF fuel r1 with
      | some (sub, r2) =>
        match parseBoolCh r2 with
        | some (nullable, r3) => some (.child name sub nullable, r3)
        | none => none
      | none => none
    | none => none
  | _ + 1, _ => none
end

mutual
/-- Round trip for schema nodes, for any fuel at least the serialized
length. -/
theorem parseNodeF_ser (s : SchemaNode) :
    ∀ (fuel : Nat) (rest : List Char), (serNode s).length ≤ fuel →
      parseNodeF fuel (serNode s ++ rest) = some (s, rest) := by
  match s with
  | .node name fields =>
    intro fuel rest h
    simp only [serNode, List.length_append] at h
    have hn := serStr_length_pos name
    cases fuel with
    | zero => omega
    | succ fuel =>
      simp only [serNode, List.append_assoc]
      rw [parseNodeF, parseStr_ser]
      simp only
      rw [parseFieldsF_ser fields fuel rest (by omega)]

/-- Round trip for field lists. -/
theorem parseFieldsF_ser (fields : FieldList) :
    ∀ (fuel : Nat) (rest : List Char), (serFields fields).length ≤ fuel →
      parseFieldsF fuel (serFields fields ++ rest) = some (fields, rest) := by
  match fields with
  | .nil =>
    intro fuel rest h
    cases fuel with
    | zero => simp [serFields] at h
    | succ fuel => rfl
  | .cons f t =>
    intro fuel rest h
    simp only [serFields, List.length_cons, List.length_append] at h
    have hf : 0 < (serFieldSpec f).length := by
      cases f <;> simp [serFieldSpec]
    cases fuel with
    | zero => omega
    | succ fuel =>
      simp only [serFields, List.cons_append, List.append_assoc]
      rw [parseFieldsF, parseFieldSpecF_ser f fuel _ (by omega)]
      simp only
      rw [parseFieldsF_ser t fuel rest (by omega)]

/-- Round trip for single fields, covering both primitive and nested
fields. -/
theorem parseFieldSpecF_ser (f : FieldSpec) :
    ∀ (fuel : Nat) (rest : List Char), (serFieldSpec f).length ≤ fuel →
      parseFieldSpecF fuel (serFieldSpec f ++ rest) = some (f, rest) := by
  match f with
  | .prim name p nullable cs allowCoercion =>
    intro fuel rest h
    simp only [serFieldSpec, List.length_cons] at h
    cases fuel with
    | zero => omega
    | succ fuel =>
      simp only [serFieldSpec, List.cons_append, List.append_assoc]
      rw [parseFieldSpecF, parseStr_ser]
      simp only
      rw [parsePrim_ser]
      simp only
      rw [parseBoolCh_ser]
      simp only
      rw [parseConstraintListF_ser cs
        (serConstraintList cs ++ (serBoolCh allowCoercion ++ rest)).length _
        (by simp)]
      simp only
      rw [parseBoolCh_ser]
  | .child name sub nullable =>
    intro fuel rest h
    simp only [serFieldSpec, List.length_cons, List.length_append] at h
    have hn := serStr_length_pos name
    cases fuel with
    | zero => omega
    | succ fuel =>
      simp only [serFieldSpec, List.cons_append, List.append_assoc]
      rw [parseFieldSpecF, parseStr_ser]
      simp only
      rw [parseNodeF_ser sub fuel _ (by omega)]
      simp only
      rw [parseBoolCh_ser]
end

/-- Modelled from the spec: SchemaCodec serialization (section 4.4) — a
SchemaNode rendered as text. -/
def serializeSchema (s : SchemaNode) : String := String.mk (serNode s)

/-- Modelled from the spec: SchemaCodec parsing (section 4.4) — the inverse of
serialization; a document with trailing garbage or an unparsable prefix is
rejected. -/
def parseSchema (t : String) : Option SchemaNode :=
  match parseNodeF t.data.length t.data with
  | some (s, []) => some s
  | _ => none

/- ===== Claim theorems ===== -/

/-- C1: for every constructible schema, serializing it to its textual form and
parsing that text back yields a schema structurally equal to the original —
every field, every constraint kind with its parameters, nullability, the
coercion flag and the timezone-awareness attribute of timestamp-typed fields
survive the round trip with no information loss. -/
theorem c1_schema_codec_round_trip (s : SchemaNode) :
    parseSchema (serializeSchema s) = some s := by
  unfold parseSchema serializeSchema
  have h := parseNodeF_ser s (serNode s).length [] (by simp)
  rw [List.append_nil] at h
  simp only
  rw [h]

/-- C2: validation-time failures are values inside the report, never
exceptions: the validator is a total function into reports; each of the four
error kinds (MissingRequiredField, TypeMismatch, CoercionFailure,
ConstraintViolation) is returned as an error value inside a report; and in a
batch run every record is validated independently, so one malformed record
cannot abort the processing of the records around it. -/
theorem c2_failures_are_report_values :
    (∀ (mode : Mode) (s : SchemaNode) (rs1 : List (List (String × Value)))
        (bad : List (String × Value)) (rs2 : List (List (String × Value))),
      validateBatch mode s (rs1 ++ bad :: rs2) =
        validateBatch mode s rs1 ++ validate mode s bad ::
          validateBatch mode s rs2)
    ∧ validate .collectAll
        (.node "r" (.cons (.prim "a" .integer false [] false) .nil)) [] =
        [⟨["a"], .missingRequiredField, "<missing>", "missing required field"⟩]
    ∧ validate .collectAll
        (.node "r" (.cons (.prim "a" .integer false [] false) .nil))
        [("a", .vstr "x")] =
        [⟨["a"], .typeMismatch, "x", "type mismatch"⟩]
    ∧ validate .collectAll
        (.node "r" (.cons (.prim "t" (.timestamp true) false [] true) .nil))
        [("t", .vstr "hello")] =
        [⟨["t"], .coercionFailure, "hello", "coercion failure"⟩]
    ∧ validate .collectAll
        (.node "r" (.cons (.prim "age" .integer false [.range 0 100 true]
          false) .nil)) [("age", .vint 150)] =
        [⟨["age"], .constraintViolation "value out of range", "150",
          "value out of range"⟩] := by
  refine ⟨?_, by decide, by decide, by decide, by decide⟩
  intro mode s rs1 bad rs2
  simp [validateBatch]

/-- C3: a String field with coercion allowed accepts an integer raw value and
converts it to its decimal string form: top-level 1234 is stored as "1234"
and nested location.postcode 90210 as "90210", each with an empty report;
with coercion disallowed the same integer yields exactly a TypeMismatch. -/
theorem c3_string_coercion_of_integers :
    validate .collectAll
      (.node "r" (.cons (.prim "s" .string false [] true) .nil))
      [("s", .vint 1234)] = []
    ∧ resolveValue .string true (.vint 1234) = .ok (.vstr "1234")
    ∧ validate .collectAll
        (.node "r" (.cons (.child "location"
          (.node "location" (.cons (.prim "postcode" .string false [] true)
            .nil)) false) .nil))
        [("location", .vobj [("postcode", .vint 90210)])] = []
    ∧ resolveValue .string true (.vint 90210) = .ok (.vstr "90210")
    ∧ validate .collectAll
        (.node "r" (.cons (.prim "s" .string false [] false) .nil))
        [("s", .vint 1234)] =
        [⟨["s"], .typeMismatch, "1234", "type mismatch"⟩] := by
  refine ⟨by decide, rfl, by decide, rfl, by decide⟩

/-- C4: against a schema declaring an Integer field age with range [0, 100],
the record with age 150 produces a report with exactly one
ConstraintViolation for that field (in both modes), and the record with age
50 produces an empty report (in both modes). -/
theorem c4_age_range_scenario :
    validate .collectAll
      (.node "r" (.cons (.prim "age" .integer false [.range 0 100 true] false)
        .nil)) [("age", .vint 150)] =
      [⟨["age"], .constraintViolation "value out of range", "150",
        "value out of range"⟩]
    ∧ validate .failFast
        (.node "r" (.cons (.prim "age" .integer false [.range 0 100 true]
          false) .nil)) [("age", .vint 150)] =
        [⟨["age"], .constraintViolation "value out of range", "150",
          "value out of range"⟩]
    ∧ validate .collectAll
        (.node "r" (.cons (.prim "age" .integer false [.range 0 100 true]
          false) .nil)) [("age", .vint 50)] = []
    ∧ validate .failFast
        (.node "r" (.cons (.prim "age" .integer false [.range 0 100 true]
          false) .nil)) [("age", .vint 50)] = [] := by
  refine ⟨by decide, by decide, by decide, by decide⟩

/-- C5: for every record and schema, the fail-fast report is exactly the
first error of the collect-all report: it has length at most one, its length
never exceeds the collect-all report's length (take is shortening), and every
error it contains also appears in the collect-all report. -/
theorem c5_fail_fast_refines_collect_all (s : SchemaNode)
    (r : List (String × Value)) :
    validate .failFast s r = (validate .collectAll s r).take 1
    ∧ (validate .failFast s r).length ≤ 1
    ∧ (validate .failFast s r).length ≤ (validate .collectAll s r).length
    ∧ validate .failFast s r ⊆ validate .collectAll s r := by
  have h := firstErrorNode_eq_head [] s r
  have hff : validate .failFast s r = (validate .collectAll s r).take 1 := by
    simp only [validate]
    rw [h]
    cases validateNode [] s r with
    | nil => rfl
    | cons e t => rfl
  refine ⟨hff, ?_, ?_, ?_⟩
  · rw [hff]
    cases validate .collectAll s r with
    | nil => simp
    | cons e t => simp
  · rw [hff]
    cases validate .collectAll s r with
    | nil => simp
    | cons e t => simp
  · rw [hff]
    exact List.take_subset 1 _

/-- C6 counterexample: the claim says a pattern without anchors may match
anywhere in the string; but the engine's check is Python re.match, which is
implicitly anchored at the start. For the anchor-free literal pattern "http"
and the string "xhttp", the pattern does match inside the string (a
re.search-style query succeeds) yet the engine's check is false. -/
theorem c6_match_anywhere_counterexample :
    pyReSearch (strLit "http") "xhttp" = true
    ∧ obeys_regex (strLit "http") "xhttp" = false := by
  refine ⟨by decide, by decide⟩

/-- C6 amended: the regex check is a boolean match of the stored pattern with
Python re.match semantics: it succeeds exactly when the pattern matches some
prefix of the string — implicitly anchored at the start but not at the end,
so a pattern without a trailing anchor does not require full-string equality,
while a pattern without a leading anchor still only matches at the
beginning. -/
theorem c6_check_is_prefix_match (r : RE) (v : String) :
    obeys_regex r v = true ↔
      ∃ p q : List Char, v.data = p ++ q ∧ p ∈ r.matches' := by
  unfold obeys_regex pyReMatch
  rw [List.any_eq_true]
  constructor
  · rintro ⟨p, hp, hm⟩
    rw [List.mem_inits] at hp
    obtain ⟨q, hq⟩ := hp
    exact ⟨p, q, hq.symm, (RegularExpression.rmatch_iff_matches' r p).mp hm⟩
  · rintro ⟨p, q, hv, hm⟩
    refine ⟨p, ?_, (RegularExpression.rmatch_iff_matches' r p).mpr hm⟩
    rw [List.mem_inits]
    exact ⟨q, hv.symm⟩

/-- C7: a record entry whose key is not declared by the schema is ignored: it
produces no ValidationError and does not change the validation outcome of the
declared fields, in either mode. -/
theorem c7_unknown_fields_ignored (mode : Mode) (k : String) (v : Value)
    (s : SchemaNode) (r : List (String × Value)) (h : k ∉ s.fieldNames) :
    validate mode s ((k, v) :: r) = validate mode s r := by
  match s with
  | .node n fields =>
    have h' : k ∉ fields.names := h
    cases mode with
    | collectAll =>
      simp only [validate, validateNode]
      exact validateFields_undeclared k v [] fields r h'
    | failFast =>
      simp only [validate, firstErrorNode]
      rw [firstErrorFields_undeclared k v [] fields r h']

/-- C7 witness: a concrete record carrying the undeclared field nickname
validates identically with and without it. -/
theorem c7_unknown_fields_ignored_witness :
    "nickname" ∉ (SchemaNode.node "r"
      (.cons (.prim "age" .integer false [] false) .nil)).fieldNames
    ∧ validate .collectAll
        (SchemaNode.node "r" (.cons (.prim "age" .integer false [] false) .nil))
        (("nickname", Value.vstr "zz") :: [("age", Value.vint 5)]) =
      validate .collectAll
        (SchemaNode.node "r" (.cons (.prim "age" .integer false [] false) .nil))
        [("age", Value.vint 5)] :=
  ⟨by decide, c7_unknown_fields_ignored .collectAll "nickname" (Value.vstr "zz")
    (SchemaNode.node "r" (.cons (.prim "age" .integer false [] false) .nil))
    [("age", Value.vint 5)] (by decide)⟩

/-- C8: every range validator in the pydantic implementation reports the same
literal error message "must be in range [{min_value}, {max_value}]" on any
out-of-range value: the placeholder text appears verbatim (the source string
is not an f-string) and the actual numeric bounds never appear in the
message, which contains no digit at all. -/
theorem c8_range_messages_are_literal :
    range_message = "must be in range [{min_value}, {max_value}]"
    ∧ (range_message.data.all fun c => !c.isDigit) = true
    ∧ (∀ v : Int, ¬((0 : Int) < v ∧ v < 99999) →
        Street.age_is_in_range v = Except.error range_message)
    ∧ (∀ v : ℚ, ¬((-90 : ℚ) < v ∧ v < 90) →
        Coordinates.latitude_is_in_range v = Except.error range_message)
    ∧ (∀ v : ℚ, ¬((-180 : ℚ) < v ∧ v < 180) →
        Coordinates.longitude_is_in_range v = Except.error range_message)
    ∧ (∀ v : Int, ¬((-946771200 : Int) < v ∧ v < 1893456000) →
        Dob.date_is_in_range v = Except.error range_message)
    ∧ (∀ v : Int, ¬((0 : Int) < v ∧ v < 100) →
        Dob.age_is_in_range v = Except.error range_message)
    ∧ (∀ v : Int, ¬((631152000 : Int) < v ∧ v < 1893456000) →
        Registered.date_is_in_range v = Except.error range_message)
    ∧ (∀ v : Int, ¬((0 : Int) < v ∧ v < 100) →
        Registered.age_is_in_range v = Except.error range_message) := by
  refine ⟨rfl, by decide, ?_, ?_, ?_, ?_, ?_, ?_, ?_⟩
  · intro v h
    unfold Street.age_is_in_range
    rw [if_neg h]
    rfl
  · intro v h
    unfold Coordinates.latitude_is_in_range
    rw [if_neg h]
    rfl
  · intro v h
    unfold Coordinates.longitude_is_in_range
    rw [if_neg h]
    rfl
  · intro v h
    unfold Dob.date_is_in_range
    rw [if_neg h]
    rfl
  · intro v h
    unfold Dob.age_is_in_range
    rw [if_neg h]
    rfl
  · intro v h
    unfold Registered.date_is_in_range
    rw [if_neg h]
    rfl
  · intro v h
    unfold Registered.age_is_in_range
    rw [if_neg h]
    rfl

/-- C8 witness: the out-of-range dob age 150 hits the literal message. -/
theorem c8_range_messages_are_literal_witness :
    ¬((0 : Int) < 150 ∧ (150 : Int) < 100)
    ∧ Dob.age_is_in_range 150 = Except.error range_message :=
  ⟨by decide, c8_range_messages_are_literal.2.2.2.2.2.2.1 150 (by decide)⟩

/-- C9: the two implementations disagree on range boundary values: at dob age
0 and 100, at latitude -90.0 and 90.0, and at street number 99999 the
pydantic validators (strict comparisons) reject the value while the pandera
schema checks (inclusive in_range) accept it, so the two embedded validators
are not equivalent. -/
theorem c9_boundary_disagreement :
    Dob.age_is_in_range 0 = Except.error range_message
    ∧ PanderaSchema.dob_age_check 0 = true
    ∧ Dob.age_is_in_range 100 = Except.error range_message
    ∧ PanderaSchema.dob_age_check 100 = true
    ∧ Coordinates.latitude_is_in_range (-90) = Except.error range_message
    ∧ PanderaSchema.location_coordinates_latitude_check (-90) = true
    ∧ Coordinates.latitude_is_in_range 90 = Except.error range_message
    ∧ PanderaSchema.location_coordinates_latitude_check 90 = true
    ∧ Street.age_is_in_range 99999 = Except.error range_message
    ∧ PanderaSchema.location_street_number_check 99999 = true := by
  refine ⟨rfl, rfl, rfl, rfl, rfl, rfl, rfl, rfl, rfl, rfl⟩

/-- C10: the pydantic Record model applies no regex check to phone (the
validator is commented out), accepting every string, while the pandera schema
enforces the phone-number regex on the phone and cell columns: the malformed
phone value "abc" passes the pydantic implementation and fails the pandera
one. -/
theorem c10_phone_regex_disagreement :
    (∀ v : String, Record.phone_accepts v = true)
    ∧ Record.phone_accepts "abc" = true
    ∧ PanderaSchema.phone_check "abc" = false := by
  refine ⟨fun _ => rfl, rfl, by decide⟩
